import Mathlib

/-
Verification development for the fiftyone excerpt consisting of
`fiftyone/utils/eval/classification.py` (classification evaluation
utilities) and `fiftyone/server/query.py` (GraphQL dataset catalog).

The Python code is shallowly embedded: labels coming out of the database
layer are `Option String` (Python `None` becomes `none`), confidences and
logits are rational numbers, fallible code returns `Option`/`Except`.
Each definition carries a comment pointing at the source lines it embeds.
External library functions (sklearn.metrics, numpy) are either modelled
from their documented behaviour (when a claim pins their value) or kept
as universally quantified function parameters (when a claim only asserts
delegation).
-/

namespace FiftyOneSpec

/-- Embeds `_clean_labels` (classification.py:443-454): walks the list,
replacing each `None` label with the `missing` string and recording in the
second component whether any `None` was encountered. -/
def _clean_labels (y : List (Option String)) (missing : String) :
    List String × Bool :=
  match y with
  | [] => ([], false)
  | yi :: rest =>
    let r := _clean_labels rest missing
    match yi with
    | none => (missing :: r.1, true)
    | some l => (l :: r.1, r.2)

/-- Embeds `_parse_labels` (classification.py:432-440): cleans both label
lists and appends the missing string to `classes` when some `None` label was
found and `missing` is not already a class. -/
def _parse_labels (ytrue ypred : List (Option String)) (classes : List String)
    (missing : String) : List String × List String × List String :=
  let t := _clean_labels ytrue missing
  let p := _clean_labels ypred missing
  let found_missing := t.2 || p.2
  let classes' :=
    if found_missing && !(classes.contains missing) then classes ++ [missing]
    else classes
  (t.1, p.1, classes')

/-- State stored by `ClassificationResults` (classification.py:225-244):
the cleaned label lists, the raw confidences, the (possibly extended)
classes list and the missing-label string. -/
structure ClassificationResults where
  ytrue : List String
  ypred : List String
  confs : List (Option ℚ)
  classes : List String
  missing : String
deriving DecidableEq

/-- Embeds `ClassificationResults.__init__` (classification.py:237-244). -/
def ClassificationResults.init (ytrue ypred : List (Option String))
    (confs : List (Option ℚ)) (classes : List String) (missing : String) :
    ClassificationResults :=
  let p := _parse_labels ytrue ypred classes missing
  ⟨p.1, p.2.1, confs, p.2.2, missing⟩

/-- Embeds the `_labels` property of `ClassificationResults`
(classification.py:246-248): the classes with the missing label removed. -/
def ClassificationResults._labels (self : ClassificationResults) :
    List String :=
  self.classes.filter (fun l => l != self.missing)

/-- Embeds `_to_binary_scores` (classification.py:457-465): a `None`
confidence is treated as `0.0`, and the score is the confidence when the
(raw, possibly `None`) predicted label equals the positive label and one
minus the confidence otherwise. -/
def _to_binary_scores (y : List (Option String)) (confs : List (Option ℚ))
    (pos_label : String) : List ℚ :=
  (y.zip confs).map (fun p =>
    let conf := p.2.getD 0
    if p.1 == some pos_label then conf else 1 - conf)

/-- State stored by `BinaryClassificationResults` (classification.py:345-361):
the inherited `ClassificationResults` state plus the positive label
(`classes[1]`, stored as `_pos_label` in the source) and the binary scores. -/
structure BinaryClassificationResults extends ClassificationResults where
  pos_label : String
  scores : List ℚ
deriving DecidableEq

/-- Embeds `BinaryClassificationResults.__init__` (classification.py:358-361).
The superclass is initialised with `missing = classes[0]`; `classes[0]` and
`classes[1]` raise `IndexError` when fewer than two classes are given, which
is modelled as `none`.  Note that `self.scores` is built from the raw local
`ypred` argument (pre missing-label substitution), not from the cleaned
`self.ypred`. -/
def BinaryClassificationResults.init (ytrue ypred : List (Option String))
    (confs : List (Option ℚ)) (classes : List String) :
    Option BinaryClassificationResults :=
  match classes with
  | neg :: pos :: _ =>
    some { toClassificationResults :=
             ClassificationResults.init ytrue ypred confs classes neg
           pos_label := pos
           scores := _to_binary_scores ypred confs pos }
  | _ => none

/-- Embeds the overridden `_labels` property of `BinaryClassificationResults`
(classification.py:363-365): all classes, the missing label included. -/
def BinaryClassificationResults._labels (self : BinaryClassificationResults) :
    List String :=
  self.classes

/-- Characterisation of `_clean_labels`: the cleaned list substitutes the
missing string for `none` entries and the flag records whether any entry was
`none`. -/
theorem clean_labels_eq (y : List (Option String)) (m : String) :
    _clean_labels y m = (y.map (fun o => o.getD m), y.any Option.isNone) := by
  induction y with
  | nil => rfl
  | cons yi rest ih =>
    cases yi <;> simp [_clean_labels, ih]

/-- C1: constructing a `ClassificationResults` replaces each `None`-valued
entry of `ytrue` and `ypred` with the missing string, leaves every non-`None`
entry unchanged, and preserves the length and order of both lists (the stored
lists are exactly the element-wise `Option.getD missing` images of the
inputs). -/
theorem C1_missing_label_substitution (ytrue ypred : List (Option String))
    (confs : List (Option ℚ)) (classes : List String) (missing : String) :
    (ClassificationResults.init ytrue ypred confs classes missing).ytrue =
        ytrue.map (fun o => o.getD missing) ∧
    (ClassificationResults.init ytrue ypred confs classes missing).ypred =
        ypred.map (fun o => o.getD missing) ∧
    (ClassificationResults.init ytrue ypred confs classes
        missing).ytrue.length = ytrue.length ∧
    (ClassificationResults.init ytrue ypred confs classes
        missing).ypred.length = ypred.length := by
  simp [ClassificationResults.init, _parse_labels, clean_labels_eq]

/-- C5: constructing a `ClassificationResults` appends the missing string to
the classes list exactly when some entry of `ytrue` or `ypred` is `None` and
the missing string is not already a class; otherwise the stored classes list
is the input list unchanged. -/
theorem C5_classes_extension (ytrue ypred : List (Option String))
    (confs : List (Option ℚ)) (classes : List String) (missing : String) :
    (ClassificationResults.init ytrue ypred confs classes missing).classes =
      if (ytrue.any Option.isNone || ypred.any Option.isNone) &&
          !(classes.contains missing)
      then classes ++ [missing] else classes := by
  simp [ClassificationResults.init, _parse_labels, clean_labels_eq]

theorem getElem?_zip_eq {α β : Type} (l1 : List α) (l2 : List β) (i : ℕ)
    (a : α) (b : β) (h1 : l1[i]? = some a) (h2 : l2[i]? = some b) :
    (l1.zip l2)[i]? = some (a, b) := by
  induction l1 generalizing l2 i with
  | nil => simp at h1
  | cons x xs ih =>
    cases l2 with
    | nil => simp at h2
    | cons y ys =>
      cases i with
      | zero =>
        simp at h1 h2
        simp [h1, h2]
      | succ j =>
        simp only [List.getElem?_cons_succ] at h1 h2
        simpa using ih ys j h1 h2

/-- C4: for a `BinaryClassificationResults` built from raw predictions and
confidences, the i-th stored score is `confs[i]` when `ypred[i]` equals the
positive label and `1 - confs[i]` otherwise, a `None` confidence counting
as `0`. -/
theorem C4_binary_scores (ytrue ypred : List (Option String))
    (confs : List (Option ℚ)) (classes : List String)
    (r : BinaryClassificationResults)
    (h : BinaryClassificationResults.init ytrue ypred confs classes = some r)
    (i : ℕ) (yi : Option String) (ci : Option ℚ)
    (hy : ypred[i]? = some yi) (hc : confs[i]? = some ci) :
    r.scores[i]? =
      some (if yi == some r.pos_label then ci.getD 0 else 1 - ci.getD 0) := by
  match classes, h with
  | neg :: pos :: rest, h =>
    simp [BinaryClassificationResults.init] at h
    subst h
    simp [_to_binary_scores, List.getElem?_map,
      getElem?_zip_eq ypred confs i yi ci hy hc]

/-- Concrete instance of C4: a sample with a `None` predicted label and a
`None` confidence receives positive-class score `1`. -/
theorem C4_binary_scores_witness :
    BinaryClassificationResults.init [none] [none] [none] ["neg", "pos"] =
      some ⟨⟨["neg"], ["neg"], [none], ["neg", "pos"], "neg"⟩, "pos", [1]⟩ ∧
    (⟨⟨["neg"], ["neg"], [none], ["neg", "pos"], "neg"⟩, "pos", [1]⟩ :
        BinaryClassificationResults).scores[0]? = some 1 := by
  have hinit : BinaryClassificationResults.init [none] [none] [none]
      ["neg", "pos"] =
      some ⟨⟨["neg"], ["neg"], [none], ["neg", "pos"], "neg"⟩, "pos", [1]⟩ := by
    simp [BinaryClassificationResults.init, ClassificationResults.init,
      _parse_labels, _clean_labels, _to_binary_scores]
  refine ⟨hinit, ?_⟩
  have h := C4_binary_scores [none] [none] [none] ["neg", "pos"]
    ⟨⟨["neg"], ["neg"], [none], ["neg", "pos"], "neg"⟩, "pos", [1]⟩
    hinit 0 none none rfl rfl
  simpa using h

/-- Models `sklearn.metrics.accuracy_score` with `normalize=True` (external
statistics library, not part of this repository): the fraction of positions
at which the two label lists agree.  sklearn raises `ValueError` on length
mismatch and produces `nan` on empty input; the claims below only use it on
equal-length, non-empty lists. -/
def accuracy_score (ytrue ypred : List String) : ℚ :=
  (((ytrue.zip ypred).countP (fun p => p.1 == p.2) : ℕ) : ℚ) /
    (ytrue.length : ℚ)

/-- Models `sklearn.metrics.confusion_matrix` (external statistics library):
entry (i, j) counts the samples whose true label is `labels[i]` and whose
predicted label is `labels[j]`; samples with labels outside `labels` are
ignored. -/
def confusion_matrix (ytrue ypred labels : List String) : List (List ℕ) :=
  labels.map (fun lt => labels.map (fun lp =>
    (ytrue.zip ypred).countP (fun p => p.1 == lt && p.2 == lp)))

/-- Embeds `ClassificationResults.metrics` (classification.py:261-288).  The
accuracy is `skm.accuracy_score(self.ytrue, self.ypred, normalize=True)`;
precision, recall and F-beta score are delegated to
`skm.precision_recall_fscore_support` applied to the stored labels with
`labels=self._labels`, represented by the function parameter `prfs` (the
`average` and `beta` arguments being pass-throughs, they are already applied
inside `prfs`).  The returned dict is the four-entry association list. -/
def ClassificationResults.metrics
    (prfs : List String → List String → List String → ℚ × ℚ × ℚ)
    (self : ClassificationResults) : List (String × ℚ) :=
  let accuracy := accuracy_score self.ytrue self.ypred
  let r := prfs self.ytrue self.ypred self._labels
  [("accuracy", accuracy), ("precision", r.1), ("recall", r.2.1),
    ("fscore", r.2.2)]

/-- Embeds the numeric content of `ClassificationResults.report`
(classification.py:250-259): the report is
`skm.classification_report(self.ytrue, self.ypred, labels=self._labels)`,
the external function being represented by the parameter `clf_report`. -/
def ClassificationResults.report {R : Type}
    (clf_report : List String → List String → List String → R)
    (self : ClassificationResults) : R :=
  clf_report self.ytrue self.ypred self._labels

/-- Embeds the numeric core of `ClassificationResults.plot_confusion_matrix`
(classification.py:302-342): the matrix handed to the matplotlib display is
`skm.confusion_matrix(self.ytrue, self.ypred, labels=self.classes)`; the
rendering itself is not modelled. -/
def ClassificationResults.plot_confusion_matrix
    (self : ClassificationResults) : List (List ℕ) :=
  confusion_matrix self.ytrue self.ypred self.classes

/-- Embeds the inherited `report` as it executes on a
`BinaryClassificationResults`, where the `_labels` property dispatches to the
override returning all classes (classification.py:363-365). -/
def BinaryClassificationResults.report {R : Type}
    (clf_report : List String → List String → List String → R)
    (self : BinaryClassificationResults) : R :=
  clf_report self.ytrue self.ypred self._labels

/-- Embeds the inherited `metrics` as it executes on a
`BinaryClassificationResults` (the `_labels` override returns all classes). -/
def BinaryClassificationResults.metrics
    (prfs : List String → List String → List String → ℚ × ℚ × ℚ)
    (self : BinaryClassificationResults) : List (String × ℚ) :=
  let accuracy := accuracy_score self.ytrue self.ypred
  let r := prfs self.ytrue self.ypred self._labels
  [("accuracy", accuracy), ("precision", r.1), ("recall", r.2.1),
    ("fscore", r.2.2)]

/-- Embeds the inherited `plot_confusion_matrix` as it executes on a
`BinaryClassificationResults`. -/
def BinaryClassificationResults.plot_confusion_matrix
    (self : BinaryClassificationResults) : List (List ℕ) :=
  confusion_matrix self.ytrue self.ypred self.classes

/-- Embeds `BinaryClassificationResults.average_precision`
(classification.py:367-379): it returns
`skm.average_precision_score(self.ytrue, self.scores,
pos_label=self._pos_label, average=average)` directly, the external function
(with `average` already applied) being represented by `aps`. -/
def BinaryClassificationResults.average_precision {R : Type}
    (aps : List String → List ℚ → String → R)
    (self : BinaryClassificationResults) : R :=
  aps self.ytrue self.scores self.pos_label

/-- Embeds the numeric core of `BinaryClassificationResults.plot_pr_curve`
(classification.py:381-406): the curve is
`skm.precision_recall_curve(self.ytrue, self.scores,
pos_label=self._pos_label)`, represented by `prc`. -/
def BinaryClassificationResults.plot_pr_curve {R : Type}
    (prc : List String → List ℚ → String → R)
    (self : BinaryClassificationResults) : R :=
  prc self.ytrue self.scores self.pos_label

/-- Embeds the numeric core of `BinaryClassificationResults.plot_roc_curve`
(classification.py:408-429): the curve is
`skm.roc_curve(self.ytrue, self.scores, pos_label=self._pos_label)`,
represented by `roc`. -/
def BinaryClassificationResults.plot_roc_curve {R : Type}
    (roc : List String → List ℚ → String → R)
    (self : BinaryClassificationResults) : R :=
  roc self.ytrue self.scores self.pos_label

theorem countP_zip_eq_range (l1 l2 : List String) (h : l1.length = l2.length) :
    (l1.zip l2).countP (fun p => p.1 == p.2) =
      (List.range l1.length).countP (fun i => l1[i]? == l2[i]?) := by
  induction l1 generalizing l2 with
  | nil => simp
  | cons x xs ih =>
    cases l2 with
    | nil => simp at h
    | cons y ys =>
      simp only [List.length_cons, Nat.succ.injEq] at h
      rw [List.zip_cons_cons, List.countP_cons, List.length_cons,
        List.range_succ_eq_map, List.countP_cons, List.countP_map, ih ys h]
      simp only [List.getElem?_cons_zero, beq_self_eq_true]
      congr 1
      apply List.countP_congr
      intro i _
      simp [Function.comp]

/-- C3: the accuracy entry of the dict returned by `metrics()` is the
fraction of positions at which the stored ytrue and ypred lists agree, and
the dict has exactly the keys accuracy, precision, recall and fscore
(whatever values the delegated precision/recall/fscore computation
returns). -/
theorem C3_metrics_accuracy
    (prfs : List String → List String → List String → ℚ × ℚ × ℚ)
    (res : ClassificationResults)
    (hlen : res.ytrue.length = res.ypred.length)
    (hpos : 0 < res.ytrue.length) :
    (res.metrics prfs).lookup ("accuracy") =
      some ((((List.range res.ytrue.length).countP
            (fun i => res.ytrue[i]? == res.ypred[i]?) : ℕ) : ℚ) /
          (res.ytrue.length : ℚ)) ∧
    (res.metrics prfs).map Prod.fst =
      ["accuracy", "precision", "recall", "fscore"] := by
  constructor
  · simp [ClassificationResults.metrics, accuracy_score,
      countP_zip_eq_range res.ytrue res.ypred hlen]
  · simp [ClassificationResults.metrics]

/-- Concrete instance of C3: on stored lists ["a","b"] versus ["a","c"] the
accuracy entry is 1/2 and the keys are exactly the four metric names. -/
theorem C3_metrics_accuracy_witness :
    ((⟨["a", "b"], ["a", "c"], [], ["a", "b", "c"], "none"⟩ :
          ClassificationResults).metrics (fun _ _ _ => (0, 0, 0))).lookup
        ("accuracy") = some (1 / 2 : ℚ) ∧
    ((⟨["a", "b"], ["a", "c"], [], ["a", "b", "c"], "none"⟩ :
          ClassificationResults).metrics (fun _ _ _ => (0, 0, 0))).map
        Prod.fst = ["accuracy", "precision", "recall", "fscore"] := by
  have h := C3_metrics_accuracy (fun _ _ _ => (0, 0, 0))
    ⟨["a", "b"], ["a", "c"], [], ["a", "b", "c"], "none"⟩ rfl (by decide)
  have hcount : (List.range 2).countP
      (fun i => (["a", "b"] : List String)[i]? ==
        (["a", "c"] : List String)[i]?) = 1 := by decide
  constructor
  · rw [h.1]
    norm_num [hcount]
  · exact h.2

/-- The spec side of C6 for `report` on `ClassificationResults`: the external
classification-report function applied to the stored labels with the label
set restricted to classes minus the missing label. -/
def reportSpec {R : Type}
    (clf_report : List String → List String → List String → R)
    (self : ClassificationResults) : R :=
  clf_report self.ytrue self.ypred
    (self.classes.filter (fun l => l != self.missing))

/-- The spec side of C6 for `metrics` on `ClassificationResults`. -/
def metricsSpec
    (prfs : List String → List String → List String → ℚ × ℚ × ℚ)
    (self : ClassificationResults) : List (String × ℚ) :=
  let accuracy := accuracy_score self.ytrue self.ypred
  let r := prfs self.ytrue self.ypred
    (self.classes.filter (fun l => l != self.missing))
  [("accuracy", accuracy), ("precision", r.1), ("recall", r.2.1),
    ("fscore", r.2.2)]

/-- The spec side of C6 for the confusion matrix on `ClassificationResults`:
per the claim, the external confusion-matrix function applied to the stored
labels with the label set restricted to classes minus the missing label. -/
def confusionMatrixSpec (self : ClassificationResults) : List (List ℕ) :=
  confusion_matrix self.ytrue self.ypred
    (self.classes.filter (fun l => l != self.missing))

/-- The spec side of C6 for `report`/`metrics` on
`BinaryClassificationResults`: the label set is all classes. -/
def binaryReportSpec {R : Type}
    (clf_report : List String → List String → List String → R)
    (self : BinaryClassificationResults) : R :=
  clf_report self.ytrue self.ypred self.classes

/-- The spec side of C6 for `metrics` on `BinaryClassificationResults`. -/
def binaryMetricsSpec
    (prfs : List String → List String → List String → ℚ × ℚ × ℚ)
    (self : BinaryClassificationResults) : List (String × ℚ) :=
  let accuracy := accuracy_score self.ytrue self.ypred
  let r := prfs self.ytrue self.ypred self.classes
  [("accuracy", accuracy), ("precision", r.1), ("recall", r.2.1),
    ("fscore", r.2.2)]

/-- The spec side of C6 for `average_precision`: the external
average-precision function applied to the stored labels and scores with the
stored positive label. -/
def averagePrecisionSpec {R : Type}
    (aps : List String → List ℚ → String → R)
    (self : BinaryClassificationResults) : R :=
  aps self.ytrue self.scores self.pos_label

/-- The spec side of C6 for the PR curve. -/
def prCurveSpec {R : Type}
    (prc : List String → List ℚ → String → R)
    (self : BinaryClassificationResults) : R :=
  prc self.ytrue self.scores self.pos_label

/-- The spec side of C6 for the ROC curve. -/
def rocCurveSpec {R : Type}
    (roc : List String → List ℚ → String → R)
    (self : BinaryClassificationResults) : R :=
  roc self.ytrue self.scores self.pos_label

/-- C6 fails as stated: for the results built from ytrue=[None],
ypred=["a"], classes=["a"], missing="none", the stored classes list is
["a","none"], and the confusion matrix computed by `plot_confusion_matrix`
(which passes `labels=self.classes`) differs from the claim's restricted
label set (classes minus the missing label). -/
theorem C6_counterexample :
    (ClassificationResults.init [none] [some ("a")] [] ["a"]
        ("none")).plot_confusion_matrix ≠
      confusionMatrixSpec
        (ClassificationResults.init [none] [some ("a")] [] ["a"] ("none")) := by
  decide

/-- C6 (amended): `report()`, `metrics()`, `average_precision()` and the
PR/ROC-curve computations pass the stored labels and scores unchanged to the
corresponding external statistics functions, the label set being classes
minus the missing label for `ClassificationResults` and all classes for
`BinaryClassificationResults`; the confusion-matrix computation, however,
always uses the full stored classes list (missing label included) for both
result types.  No numeric post-processing happens beyond packaging into a
dict. -/
theorem C6_delegation_amended :
    (∀ (R : Type) (f : List String → List String → List String → R)
        (cr : ClassificationResults), cr.report f = reportSpec f cr) ∧
    (∀ (prfs : List String → List String → List String → ℚ × ℚ × ℚ)
        (cr : ClassificationResults), cr.metrics prfs = metricsSpec prfs cr) ∧
    (∀ cr : ClassificationResults, cr.plot_confusion_matrix =
        confusion_matrix cr.ytrue cr.ypred cr.classes) ∧
    (∀ (R : Type) (f : List String → List String → List String → R)
        (b : BinaryClassificationResults), b.report f = binaryReportSpec f b) ∧
    (∀ (prfs : List String → List String → List String → ℚ × ℚ × ℚ)
        (b : BinaryClassificationResults),
        b.metrics prfs = binaryMetricsSpec prfs b) ∧
    (∀ b : BinaryClassificationResults, b.plot_confusion_matrix =
        confusion_matrix b.ytrue b.ypred b.classes) ∧
    (∀ (R : Type) (aps : List String → List ℚ → String → R)
        (b : BinaryClassificationResults),
        b.average_precision aps = averagePrecisionSpec aps b) ∧
    (∀ (R : Type) (prc : List String → List ℚ → String → R)
        (b : BinaryClassificationResults),
        b.plot_pr_curve prc = prCurveSpec prc b) ∧
    (∀ (R : Type) (roc : List String → List ℚ → String → R)
        (b : BinaryClassificationResults),
        b.plot_roc_curve roc = rocCurveSpec roc b) := by
  refine ⟨fun R f cr => rfl, fun prfs cr => rfl, fun cr => rfl,
    fun R f b => rfl, fun prfs b => rfl, fun b => rfl,
    fun R aps b => rfl, fun R prc b => rfl, fun R roc b => rfl⟩

/-- Python builtin exceptions the evaluation utilities can propagate:
`KeyError` from the `targets_map` dictionary lookup (carrying the missing
key, which may be Python `None`), `ValueError` from `np.argpartition` on an
out-of-bounds partition index, and `AxisError` (a `ValueError` subclass)
from `np.argpartition` applied to a `None` logits value, which numpy turns
into a 0-d array whose default axis is out of bounds (reachable only
through the loop reference of C9).  The module defines no exception type of
its own. -/
inductive PyErr where
  | keyError (key : Option String)
  | valueError
  | axisError
deriving DecidableEq

/-- Index of the last occurrence of `s` in the list: the value the Python
dict comprehension `{label: idx for idx, label in enumerate(classes)}`
stores for the key `s` (for duplicate labels the later index wins). -/
def lastIdxOf : List String → String → Option ℕ
  | [], _ => none
  | c :: cs, s =>
    match lastIdxOf cs s with
    | some i => some (i + 1)
    | none => if c = s then some 0 else none

/-- Index of the first occurrence of `s`: the "position of the ground-truth
label in classes" in the words of C2. -/
def firstIdxOf : List String → String → Option ℕ
  | [], _ => none
  | c :: cs, s => if c = s then some 0 else (firstIdxOf cs s).map (· + 1)

/-- Models the dictionary lookup `targets_map[_label]` where
`targets_map = {label: idx for idx, label in enumerate(classes)}`
(classification.py:184,194).  A label absent from `classes` — in particular
a `None` ground-truth label — has no entry; the caller raises `KeyError`. -/
def targetsMap (classes : List String) (label : Option String) : Option ℕ :=
  match label with
  | none => none
  | some s => lastIdxOf classes s

/-- Models membership of `target` in `np.argpartition(logits, -k)[-k:]` for
`k ≥ 1`: the slice holds `k` indices carrying the `k` largest logits, so
`target` is selected exactly when fewer than `k` entries are strictly
larger than `logits[target]`.  (For distinct values this is exact; when
values tie at the selection boundary numpy's introselect makes an
unspecified choice, which this definition resolves in favour of
membership.)  An out-of-range `target` is never among the indices. -/
def topKContains (logits : List ℚ) (k : ℕ) (target : ℕ) : Bool :=
  match logits[target]? with
  | none => false
  | some v => logits.countP (fun x => v < x) < k

/-- Embeds the per-sample body of the loop in
`evaluate_top_k_classifications` (classification.py:191-200): a sample with
`None` logits is marked incorrect without consulting `targets_map`;
otherwise the ground-truth label is looked up (`KeyError` when absent) and
`target in np.argpartition(_logits, -k)[-k:]` is evaluated.
`np.argpartition` raises `ValueError` when the partition index is out of
bounds, i.e. when `k` exceeds the number of logits, or when `k = 0` and the
logits array is empty; for `k = 0` the Python slice `[-0:]` is the whole
array, so every index is selected. -/
def topKSampleCorrect (k : ℕ) (classes : List String) :
    Option String × Option (List ℚ) → Except PyErr Bool
  | (_, none) => .ok false
  | (label, some li) =>
    match targetsMap classes label with
    | none => .error (.keyError label)
    | some target =>
      if k = 0 then
        if li.isEmpty then .error .valueError else .ok true
      else if li.length < k then .error .valueError
      else .ok (topKContains li k target)

/-- The `correct` list built by `evaluate_top_k_classifications`
(classification.py:191-200); the loop aborts at the first raising sample. -/
def topKCorrectList (k : ℕ) (classes : List String) :
    List (Option String × Option (List ℚ)) → Except PyErr (List Bool)
  | [] => .ok []
  | p :: rest => do
    let c ← topKSampleCorrect k classes p
    let cs ← topKCorrectList k classes rest
    .ok (c :: cs)

/-- Models `np.mean` on a list of booleans: the number of `true` entries
over the length.  On the empty list `np.mean([])` is `nan` (no exception),
which has no ℚ counterpart — the theorems below therefore carry an explicit
non-emptiness hypothesis wherever this value is compared, and no statement
relies on the conventional `0/0 = 0`. -/
def npMean (correct : List Bool) : ℚ :=
  ((correct.countP id : ℕ) : ℚ) / (correct.length : ℚ)

/-- Embeds `evaluate_top_k_classifications` (classification.py:158-222) on
the per-sample data extracted by the aggregation (ground-truth labels and
logits).  Returns the per-sample `correct` values written to the eval field
together with the returned top-k accuracy `np.mean(correct)`. -/
def evaluate_top_k_classifications (k : ℕ) (classes : List String)
    (ytrue : List (Option String)) (logits : List (Option (List ℚ))) :
    Except PyErr (List Bool × ℚ) := do
  let correct ← topKCorrectList k classes (ytrue.zip logits)
  .ok (correct, npMean correct)

/-- The per-sample correctness criterion in the words of C2: the position of
the ground-truth label in `classes` (its first index) is among the indices
of the `k` largest logits; a sample whose logits are `None` is incorrect. -/
def claimCorrect (k : ℕ) (classes : List String) :
    Option String × Option (List ℚ) → Bool
  | (_, none) => false
  | (label, some li) =>
    match label with
    | none => false
    | some s =>
      match firstIdxOf classes s with
      | none => false
      | some t =>
        match li[t]? with
        | none => false
        | some v => li.countP (fun x => v < x) < k

/-- Decidable precondition under which the top-k evaluation raises nothing:
every sample with logits has its ground-truth label in `targets_map` and at
least `k` logits. -/
def topKWellFormed (k : ℕ) (classes : List String)
    (pairs : List (Option String × Option (List ℚ))) : Bool :=
  pairs.all (fun p =>
    match p.2 with
    | none => true
    | some li => (targetsMap classes p.1).isSome && k ≤ li.length)

theorem lastIdxOf_eq_none (cs : List String) (s : String) :
    lastIdxOf cs s = none ↔ s ∉ cs := by
  induction cs with
  | nil => simp [lastIdxOf]
  | cons c cs ih =>
    rw [lastIdxOf]
    cases h : lastIdxOf cs s with
    | some i =>
      have : s ∈ cs := by
        by_contra hmem
        rw [ih.2 hmem] at h
        exact Option.noConfusion h
      simp [this]
    | none =>
      have hns : s ∉ cs := ih.1 h
      by_cases hcs : c = s
      · subst hcs
        simp
      · simp [hcs, hns, Ne.symm hcs]

theorem firstIdxOf_eq_lastIdxOf (cs : List String) (s : String)
    (hnd : cs.Nodup) : firstIdxOf cs s = lastIdxOf cs s := by
  induction cs with
  | nil => rfl
  | cons c cs ih =>
    rw [List.nodup_cons] at hnd
    obtain ⟨hc, hnd'⟩ := hnd
    rw [firstIdxOf, lastIdxOf]
    by_cases hcs : c = s
    · subst hcs
      rw [(lastIdxOf_eq_none cs c).2 hc]
      simp
    · rw [if_neg hcs, ih hnd']
      cases h : lastIdxOf cs s with
      | some i => simp
      | none => rw [if_neg hcs]; rfl

theorem topKSample_eq_claim (k : ℕ) (classes : List String)
    (hk : 1 ≤ k) (hnd : classes.Nodup)
    (p : Option String × Option (List ℚ))
    (hw : (match p.2 with
      | none => true
      | some li => (targetsMap classes p.1).isSome && k ≤ li.length) = true) :
    topKSampleCorrect k classes p = .ok (claimCorrect k classes p) := by
  obtain ⟨label, lg⟩ := p
  cases lg with
  | none => rfl
  | some li =>
    simp only [Bool.and_eq_true, Option.isSome_iff_exists,
      decide_eq_true_eq] at hw
    obtain ⟨⟨t, ht⟩, hlen⟩ := hw
    cases label with
    | none => exact absurd ht (by simp [targetsMap])
    | some s =>
      have hlast : lastIdxOf classes s = some t := ht
      have hfirst : firstIdxOf classes s = some t := by
        rw [firstIdxOf_eq_lastIdxOf classes s hnd, hlast]
      have hk0 : ¬k = 0 := by omega
      have hlt : ¬li.length < k := by omega
      simp only [topKSampleCorrect, claimCorrect, ht, hfirst, if_neg hk0,
        if_neg hlt, topKContains]

theorem topKCorrectList_eq (k : ℕ) (classes : List String) (hk : 1 ≤ k)
    (hnd : classes.Nodup)
    (pairs : List (Option String × Option (List ℚ)))
    (hw : topKWellFormed k classes pairs = true) :
    topKCorrectList k classes pairs =
      .ok (pairs.map (claimCorrect k classes)) := by
  induction pairs with
  | nil => rfl
  | cons p rest ih =>
    rw [topKWellFormed, List.all_cons, Bool.and_eq_true] at hw
    rw [topKCorrectList, topKSample_eq_claim k classes hk hnd p hw.1,
      ih hw.2]
    rfl

/-- C2 (amended to require k ≥ 1): for every non-empty sample collection
whose samples with logits all have their ground-truth label in `classes`
and at least `k` logits, the top-k evaluation returns the number of samples
whose ground-truth class index is among the indices of the `k` largest
logits divided by the number of samples, samples with `None` logits
counting as incorrect, and the value lies in [0, 1]. -/
theorem C2_top_k_accuracy (k : ℕ) (classes : List String)
    (ytrue : List (Option String)) (logits : List (Option (List ℚ)))
    (hk : 1 ≤ k) (hnd : classes.Nodup) (hne : 0 < ytrue.length)
    (hlen : ytrue.length = logits.length)
    (hw : topKWellFormed k classes (ytrue.zip logits) = true) :
    evaluate_top_k_classifications k classes ytrue logits =
      .ok ((ytrue.zip logits).map (claimCorrect k classes),
        (((ytrue.zip logits).countP (claimCorrect k classes) : ℕ) : ℚ) /
          (ytrue.length : ℚ)) ∧
    0 ≤ (((ytrue.zip logits).countP (claimCorrect k classes) : ℕ) : ℚ) /
        (ytrue.length : ℚ) ∧
    (((ytrue.zip logits).countP (claimCorrect k classes) : ℕ) : ℚ) /
        (ytrue.length : ℚ) ≤ 1 := by
  have hzlen : (ytrue.zip logits).length = ytrue.length := by
    rw [List.length_zip, hlen, Nat.min_self]
  refine ⟨?_, ?_, ?_⟩
  · rw [evaluate_top_k_classifications,
      topKCorrectList_eq k classes hk hnd _ hw]
    show Except.ok (_, npMean _) = _
    rw [npMean, List.countP_map, List.length_map, hzlen]
    have : (id ∘ claimCorrect k classes) = claimCorrect k classes := rfl
    rw [this]
  · positivity
  · rw [div_le_one (by exact_mod_cast hne)]
    exact_mod_cast hzlen ▸ List.countP_le_length (claimCorrect k classes)

/-- Concrete instance of C2 (amended): with k = 1, classes ["a","b"] and two
samples — one whose label "a" carries the larger of two logits, one with
`None` logits — the returned accuracy is 1/2. -/
theorem C2_top_k_accuracy_witness :
    evaluate_top_k_classifications 1 ["a", "b"] [some ("a"), some ("b")]
        [some [(3 : ℚ), 1], none] = .ok ([true, false], 1 / 2) := by
  have h := C2_top_k_accuracy 1 ["a", "b"] [some ("a"), some ("b")]
    [some [(3 : ℚ), 1], none] (by decide) (by decide) (by decide) (by decide)
    (by decide)
  rw [h.1]
  norm_num [claimCorrect, firstIdxOf, List.countP_cons]

/-- C2 fails as stated at k = 0: `np.argpartition(logits, -0)[-0:]` is the
entire index array (Python slice `[-0:]` equals `[0:]`), so the single
sample counts as correct and the code returns accuracy 1, while the claim's
criterion — the ground-truth index is among the indices of the 0 largest
logits — holds of no sample and predicts accuracy 0. -/
theorem C2_counterexample :
    evaluate_top_k_classifications 0 ["a"] [some ("a")] [some [(1 : ℚ)]] =
      .ok ([true], 1) ∧
    claimCorrect 0 ["a"] (some ("a"), some [(1 : ℚ)]) = false ∧
    (1 : ℚ) ≠ 0 := by
  refine ⟨?_, ?_, by norm_num⟩
  · rw [show evaluate_top_k_classifications 0 ["a"] [some ("a")]
        [some [(1 : ℚ)]] = .ok ([true], npMean [true]) from rfl]
    rw [npMean]
    norm_num
  · rw [claimCorrect]
    norm_num [firstIdxOf, List.countP_cons]

theorem topKCorrectList_error (k : ℕ) (classes : List String)
    (pairs : List (Option String × Option (List ℚ))) (e : PyErr)
    (h : topKCorrectList k classes pairs = .error e) :
    ∃ lab li, (lab, some li) ∈ pairs ∧
      ((e = .keyError lab ∧ targetsMap classes lab = none) ∨
        e = .valueError) := by
  induction pairs with
  | nil => exact absurd h (by rw [topKCorrectList]; exact fun hc => Except.noConfusion hc)
  | cons p rest ih =>
    rw [topKCorrectList] at h
    cases hs : topKSampleCorrect k classes p with
    | error e1 =>
      rw [hs] at h
      have he : e1 = e := by
        cases h
        rfl
      subst he
      obtain ⟨lab, lg⟩ := p
      cases lg with
      | none => exact absurd hs (by rw [topKSampleCorrect]; exact fun hc => Except.noConfusion hc)
      | some li =>
        rw [topKSampleCorrect] at hs
        cases ht : targetsMap classes lab with
        | none =>
          rw [ht] at hs
          cases hs
          exact ⟨lab, li, by simp, Or.inl ⟨rfl, ht⟩⟩
        | some t =>
          rw [ht] at hs
          refine ⟨lab, li, by simp, Or.inr ?_⟩
          split_ifs at hs <;> cases hs <;> rfl
    | ok c =>
      rw [hs] at h
      cases hr : topKCorrectList k classes rest with
      | error e2 =>
        rw [hr] at h
        have he : e2 = e := by
          cases h
          rfl
        subst he
        obtain ⟨lab, li, hmem, hcase⟩ := ih hr
        exact ⟨lab, li, List.mem_cons_of_mem p hmem, hcase⟩
      | ok cs =>
        rw [hr] at h
        exact absurd h (fun hc => Except.noConfusion hc)

/-- C8: every exception propagating out of the top-k evaluation traces to a
sample with logits whose label is absent from the `targets_map` dictionary
(the builtin `KeyError`, carrying that label unmodified) or to an
out-of-bounds partition index in `np.argpartition` (the builtin
`ValueError`); the module raises no exception type of its own.  In
particular, a single sample with logits whose ground-truth label has no
`targets_map` entry yields exactly `KeyError(label)`. -/
theorem C8_no_custom_errors :
    (∀ (k : ℕ) (classes : List String) (ytrue : List (Option String))
        (logits : List (Option (List ℚ))) (e : PyErr),
        evaluate_top_k_classifications k classes ytrue logits = .error e →
          ∃ lab li, (lab, some li) ∈ ytrue.zip logits ∧
            ((e = .keyError lab ∧ targetsMap classes lab = none) ∨
              e = .valueError)) ∧
    (∀ (k : ℕ) (classes : List String) (lab : Option String) (li : List ℚ),
        targetsMap classes lab = none →
        evaluate_top_k_classifications k classes [lab] [some li] =
          .error (.keyError lab)) := by
  constructor
  · intro k classes ytrue logits e h
    rw [evaluate_top_k_classifications] at h
    cases hc : topKCorrectList k classes (ytrue.zip logits) with
    | error e1 =>
      rw [hc] at h
      have he : e1 = e := by
        cases h
        rfl
      subst he
      exact topKCorrectList_error k classes _ _ hc
    | ok cs =>
      rw [hc] at h
      exact absurd h (fun hcon => Except.noConfusion hcon)
  · intro k classes lab li hmap
    rw [evaluate_top_k_classifications]
    rw [show ([lab].zip [some li]) = [(lab, some li)] from rfl]
    rw [topKCorrectList, topKSampleCorrect, hmap]
    rfl

/-- Concrete instance of C8: ground-truth label "b" absent from classes
["a"] on a sample with logits raises `KeyError("b")` unmodified. -/
theorem C8_no_custom_errors_witness :
    targetsMap ["a"] (some ("b")) = none ∧
    evaluate_top_k_classifications 1 ["a"] [some ("b")] [some [(1 : ℚ)]] =
      .error (.keyError (some ("b"))) := by
  refine ⟨by decide, ?_⟩
  exact C8_no_custom_errors.2 1 ["a"] (some ("b")) [(1 : ℚ)] (by decide)

/-- A sample as seen through the two fields the evaluation functions
consult: ground-truth label, predicted label, confidence and logits (each
possibly missing, i.e. Python `None`). -/
structure Sample where
  gt_label : Option String
  pred_label : Option String
  pred_conf : Option ℚ
  pred_logits : Option (List ℚ)
deriving DecidableEq

/-- Models `samples.aggregate([foa.Values(field)])` for one field: the
projected value of every sample, in collection order. -/
def aggregateValues {α : Type} (proj : Sample → α) (samples : List Sample) :
    List α :=
  samples.map proj

/-- The default classes of `evaluate_classifications`
(classification.py:77-80): `sorted((set(ytrue) | set(ypred)) - {None})`,
i.e. the sorted deduplicated observed labels. -/
def observedClasses (ytrue ypred : List (Option String)) : List String :=
  (((ytrue ++ ypred).filterMap id).dedup).insertionSort (fun a b => a ≤ b)

/-- Embeds `evaluate_classifications` (classification.py:19-82): one batch
aggregation extracts the three value lists, the eval field is set to
`F(gt) == F(pred)` per sample, default classes are the sorted observed
labels.  Returns the aggregated lists, the per-sample eval values and the
constructed results object. -/
def evaluate_classifications (samples : List Sample)
    (classes? : Option (List String)) (missing : String) :
    (List (Option String) × List (Option String) × List (Option ℚ)) ×
      List Bool × ClassificationResults :=
  let ytrue := aggregateValues (fun s => s.gt_label) samples
  let ypred := aggregateValues (fun s => s.pred_label) samples
  let confs := aggregateValues (fun s => s.pred_conf) samples
  let evalVals := samples.map (fun s => s.gt_label == s.pred_label)
  let classes :=
    match classes? with
    | some cs => cs
    | none => observedClasses ytrue ypred
  ((ytrue, ypred, confs), evalVals,
    ClassificationResults.init ytrue ypred confs classes missing)

/-- Embeds the loop reference in the comment block of
`evaluate_classifications` (classification.py:61-75): one sequential pass
reading each sample's fields once, appending the three values and recording
`gt_label == pred_label` in the eval field. -/
def classificationsLoopCollect : List Sample →
    List (Option String) × List (Option String) × List (Option ℚ) × List Bool
  | [] => ([], [], [], [])
  | s :: rest =>
    let r := classificationsLoopCollect rest
    (s.gt_label :: r.1, s.pred_label :: r.2.1, s.pred_conf :: r.2.2.1,
      (s.gt_label == s.pred_label) :: r.2.2.2)

/-- The function `evaluate_classifications` with the aggregation replaced by the loop
reference; the classes default and the result construction are the shared
tail of the function. -/
def evaluate_classifications_loop (samples : List Sample)
    (classes? : Option (List String)) (missing : String) :
    (List (Option String) × List (Option String) × List (Option ℚ)) ×
      List Bool × ClassificationResults :=
  let r := classificationsLoopCollect samples
  let classes :=
    match classes? with
    | some cs => cs
    | none => observedClasses r.1 r.2.1
  ((r.1, r.2.1, r.2.2.1), r.2.2.2,
    ClassificationResults.init r.1 r.2.1 r.2.2.1 classes missing)

/-- The eval label assigned by the batch `F().switch({...})` expression of
`evaluate_binary_classifications` (classification.py:124-131): the four
guarded cases, a missing label never comparing equal to the positive
label. -/
def binarySwitchLabel (pos_label : String) (s : Sample) : String :=
  if (s.gt_label == some pos_label) && (s.pred_label == some pos_label) then
    "TP"
  else if (s.gt_label == some pos_label) &&
      !(s.pred_label == some pos_label) then
    "FN"
  else if !(s.gt_label == some pos_label) &&
      !(s.pred_label == some pos_label) then
    "TN"
  else
    "FP"

/-- Embeds `evaluate_binary_classifications` (classification.py:85-155):
`pos_label = classes[-1]` (IndexError on an empty classes list, modelled as
`none`), one batch aggregation, the switch expression for the eval field,
and the `BinaryClassificationResults` construction. -/
def evaluate_binary_classifications (samples : List Sample)
    (classes : List String) :
    Option ((List (Option String) × List (Option String) ×
      List (Option ℚ)) × List String × BinaryClassificationResults) := do
  let pos_label ← classes.getLast?
  let ytrue := aggregateValues (fun s => s.gt_label) samples
  let ypred := aggregateValues (fun s => s.pred_label) samples
  let confs := aggregateValues (fun s => s.pred_conf) samples
  let evalVals := samples.map (binarySwitchLabel pos_label)
  let r ← BinaryClassificationResults.init ytrue ypred confs classes
  some ((ytrue, ypred, confs), evalVals, r)

/-- A `fiftyone.core.labels.Classification` document as stored by the loop
reference of `evaluate_binary_classifications` (classification.py:152);
only its label matters here. -/
structure EvalClassification where
  label : String
deriving DecidableEq

/-- The eval label computed by the loop reference
(classification.py:146-150). -/
def binaryLoopLabel (pos_label : String) (s : Sample) : String :=
  if s.gt_label == some pos_label then
    if s.pred_label == some pos_label then "TP" else "FN"
  else
    if !(s.pred_label == some pos_label) then "TN" else "FP"

/-- The loop reference of `evaluate_binary_classifications`
(classification.py:134-153): note it stores the eval label wrapped in a
`Classification`, unlike the batch path which writes the raw string. -/
def binaryLoopCollect (pos_label : String) : List Sample →
    List (Option String) × List (Option String) × List (Option ℚ) ×
      List EvalClassification
  | [] => ([], [], [], [])
  | s :: rest =>
    let r := binaryLoopCollect pos_label rest
    (s.gt_label :: r.1, s.pred_label :: r.2.1, s.pred_conf :: r.2.2.1,
      (⟨binaryLoopLabel pos_label s⟩ : EvalClassification) :: r.2.2.2)

/-- The function `evaluate_binary_classifications` with the aggregation and eval-field
write replaced by the loop reference. -/
def evaluate_binary_classifications_loop (samples : List Sample)
    (classes : List String) :
    Option ((List (Option String) × List (Option String) ×
      List (Option ℚ)) × List EvalClassification ×
      BinaryClassificationResults) := do
  let pos_label ← classes.getLast?
  let r := binaryLoopCollect pos_label samples
  let res ← BinaryClassificationResults.init r.1 r.2.1 r.2.2.1 classes
  some ((r.1, r.2.1, r.2.2.1), r.2.2.2, res)

/-- The function `evaluate_top_k_classifications` as run on a sample collection: the
aggregation extracts the label and logits lists which the batch body
processes (classification.py:187-189). -/
def evaluate_top_k_batch (k : ℕ) (classes : List String)
    (samples : List Sample) : Except PyErr (List Bool × ℚ) :=
  evaluate_top_k_classifications k classes
    (aggregateValues (fun s => s.gt_label) samples)
    (aggregateValues (fun s => s.pred_logits) samples)

/-- Per-sample body of the top-k loop reference (classification.py:208-218):
the `targets_map` lookup happens before the logits are read, and
`np.argpartition` is applied to the raw logits value — a `None` logits
value becomes a 0-d object array whose default axis is out of bounds, so
numpy raises `AxisError` (a `ValueError` subclass) instead of counting the
sample incorrect. -/
def topKLoopSample (k : ℕ) (classes : List String) (s : Sample) :
    Except PyErr Bool := do
  let t ← match targetsMap classes s.gt_label with
    | none => Except.error (.keyError s.gt_label)
    | some t => Except.ok t
  let li ← match s.pred_logits with
    | none => Except.error PyErr.axisError
    | some li => Except.ok li
  if k = 0 then
    if li.isEmpty then Except.error PyErr.valueError else Except.ok true
  else if li.length < k then Except.error PyErr.valueError
  else Except.ok (topKContains li k t)

/-- The top-k loop reference: per-sample eval values plus the running
`num_correct` counter (classification.py:208-218). -/
def topKLoopGo (k : ℕ) (classes : List String) :
    List Sample → Except PyErr (List Bool × ℕ)
  | [] => .ok ([], 0)
  | s :: rest => do
    let c ← topKLoopSample k classes s
    let r ← topKLoopGo k classes rest
    .ok (c :: r.1, (if c then 1 else 0) + r.2)

/-- The accuracy the top-k loop reference returns:
`num_correct / len(samples)` (classification.py:220).  On an empty
collection this Python division raises `ZeroDivisionError` while the batch
path returns `np.mean([]) = nan` — a batch/loop divergence of its own; the
ℚ division here is total, so the equivalence theorem below carries an
explicit non-emptiness hypothesis and never equates the two at the empty
collection. -/
def evaluate_top_k_loop (k : ℕ) (classes : List String)
    (samples : List Sample) : Except PyErr (List Bool × ℚ) := do
  let r ← topKLoopGo k classes samples
  .ok (r.1, (r.2 : ℚ) / (samples.length : ℚ))

theorem classificationsLoopCollect_eq (samples : List Sample) :
    classificationsLoopCollect samples =
      (samples.map (fun s => s.gt_label),
        samples.map (fun s => s.pred_label),
        samples.map (fun s => s.pred_conf),
        samples.map (fun s => s.gt_label == s.pred_label)) := by
  induction samples with
  | nil => rfl
  | cons s rest ih => simp [classificationsLoopCollect, ih]

theorem binaryLoopLabel_eq_switch (pos : String) (s : Sample) :
    binaryLoopLabel pos s = binarySwitchLabel pos s := by
  rw [binaryLoopLabel, binarySwitchLabel]
  by_cases hg : s.gt_label == some pos <;>
    by_cases hp : s.pred_label == some pos <;> simp [hg, hp]

theorem binaryLoopCollect_eq (pos : String) (samples : List Sample) :
    binaryLoopCollect pos samples =
      (samples.map (fun s => s.gt_label),
        samples.map (fun s => s.pred_label),
        samples.map (fun s => s.pred_conf),
        samples.map (fun s =>
          (⟨binarySwitchLabel pos s⟩ : EvalClassification))) := by
  induction samples with
  | nil => rfl
  | cons s rest ih =>
    simp [binaryLoopCollect, ih, binaryLoopLabel_eq_switch]

theorem topKCorrectList_length (k : ℕ) (classes : List String)
    (pairs : List (Option String × Option (List ℚ))) (correct : List Bool)
    (h : topKCorrectList k classes pairs = .ok correct) :
    correct.length = pairs.length := by
  induction pairs generalizing correct with
  | nil =>
    cases h
    rfl
  | cons p rest ih =>
    rw [topKCorrectList] at h
    cases hs : topKSampleCorrect k classes p with
    | error e =>
      rw [hs] at h
      exact absurd h (fun hc => Except.noConfusion hc)
    | ok c =>
      rw [hs] at h
      cases hr : topKCorrectList k classes rest with
      | error e =>
        rw [hr] at h
        exact absurd h (fun hc => Except.noConfusion hc)
      | ok cs =>
        rw [hr] at h
        cases h
        simp [ih cs hr]

theorem topKLoopGo_eq (k : ℕ) (classes : List String)
    (samples : List Sample) (h : ∀ s ∈ samples, s.pred_logits ≠ none) :
    topKLoopGo k classes samples =
      (topKCorrectList k classes
        ((samples.map (fun s => s.gt_label)).zip
          (samples.map (fun s => s.pred_logits)))).map
        (fun correct => (correct, correct.countP id)) := by
  induction samples with
  | nil => rfl
  | cons s rest ih =>
    obtain ⟨li, hli⟩ : ∃ li, s.pred_logits = some li := by
      cases hsl : s.pred_logits with
      | none => exact absurd hsl (h s (by simp))
      | some li => exact ⟨li, rfl⟩
    have hsample : topKLoopSample k classes s =
        topKSampleCorrect k classes (s.gt_label, s.pred_logits) := by
      rw [topKLoopSample, hli, topKSampleCorrect]
      cases targetsMap classes s.gt_label with
      | none => rfl
      | some t => rfl
    rw [List.map_cons, List.map_cons, List.zip_cons_cons, topKLoopGo,
      topKCorrectList, hsample]
    cases hc : topKSampleCorrect k classes (s.gt_label, s.pred_logits) with
    | error e => rfl
    | ok c =>
      rw [ih (fun x hx => h x (List.mem_cons_of_mem s hx))]
      cases hr : topKCorrectList k classes
          ((rest.map (fun s => s.gt_label)).zip
            (rest.map (fun s => s.pred_logits))) with
      | error e => rfl
      | ok correct =>
        show Except.ok _ = Except.ok _
        simp [List.countP_cons, Nat.add_comm]

/-- C9 fails as stated: on a sample whose logits are `None`, the batch path
of the top-k evaluation counts the sample incorrect and returns accuracy 0,
while the loop reference given in the code comment looks the label up and
hands the `None` logits to `np.argpartition`, raising `AxisError`. -/
theorem C9_counterexample :
    evaluate_top_k_batch 1 ["a"]
        [⟨some ("a"), none, none, none⟩] = .ok ([false], 0) ∧
    evaluate_top_k_loop 1 ["a"]
        [⟨some ("a"), none, none, none⟩] = .error PyErr.axisError := by
  constructor
  · show Except.ok ([false], npMean [false]) = Except.ok ([false], 0)
    rw [npMean]
    norm_num
  · rfl

/-- C9 (amended): each evaluation function's batch computation is equivalent
to the sequential per-sample loop reference of its comment block, with the
three provisos the code forces: the binary loop stores each eval label
wrapped in a `Classification` whose label is the string the batch path
writes; the top-k equivalence holds on collections whose samples all have
populated logits (as the docstring requires) — on a sample with `None`
logits the batch counts it incorrect while the loop raises `AxisError`;
and the top-k collection must be non-empty — on the empty collection the
batch returns `np.mean([]) = nan` while the loop raises
`ZeroDivisionError` at `num_correct / len(samples)`, so the two are not
equivalent there either. -/
theorem C9_batch_loop_equivalence :
    (∀ (samples : List Sample) (classes? : Option (List String))
        (missing : String),
        evaluate_classifications samples classes? missing =
          evaluate_classifications_loop samples classes? missing) ∧
    (∀ (samples : List Sample) (classes : List String),
        evaluate_binary_classifications_loop samples classes =
          (evaluate_binary_classifications samples classes).map
            (fun r => (r.1,
              r.2.1.map (fun l => (⟨l⟩ : EvalClassification)), r.2.2))) ∧
    (∀ (k : ℕ) (classes : List String) (samples : List Sample),
        0 < samples.length →
        (∀ s ∈ samples, s.pred_logits ≠ none) →
        evaluate_top_k_batch k classes samples =
          evaluate_top_k_loop k classes samples) := by
  refine ⟨?_, ?_, ?_⟩
  · intro samples classes? missing
    rw [evaluate_classifications_loop.eq_def, classificationsLoopCollect_eq]
    rfl
  · intro samples classes
    rw [evaluate_binary_classifications_loop,
      evaluate_binary_classifications]
    cases classes.getLast? with
    | none => rfl
    | some pos =>
      show (do
        let r := binaryLoopCollect pos samples
        let res ← BinaryClassificationResults.init r.1 r.2.1 r.2.2.1 classes
        some ((r.1, r.2.1, r.2.2.1), r.2.2.2, res)) = _
      rw [binaryLoopCollect_eq]
      cases hinit : BinaryClassificationResults.init
          (samples.map (fun s => s.gt_label))
          (samples.map (fun s => s.pred_label))
          (samples.map (fun s => s.pred_conf)) classes with
      | none => simp [aggregateValues, hinit]
      | some r =>
        simp [aggregateValues, hinit, List.map_map, Function.comp]
  · intro k classes samples _hne h
    rw [evaluate_top_k_loop, topKLoopGo_eq k classes samples h,
      evaluate_top_k_batch, evaluate_top_k_classifications,
      aggregateValues, aggregateValues]
    cases hc : topKCorrectList k classes
        ((samples.map (fun s => s.gt_label)).zip
          (samples.map (fun s => s.pred_logits))) with
    | error e => rfl
    | ok correct =>
      show Except.ok (correct, npMean correct) =
        Except.ok (correct, (correct.countP id : ℚ) / (samples.length : ℚ))
      have hlen : correct.length = samples.length := by
        rw [topKCorrectList_length k classes _ correct hc, List.length_zip,
          List.length_map, List.length_map, Nat.min_self]
      rw [npMean, hlen]

/-- Concrete instance of C9 (amended): on a non-empty collection of one
sample with populated logits, batch and loop agree (both return
accuracy 1). -/
theorem C9_batch_loop_equivalence_witness :
    0 < [(⟨some ("a"), none, none, some [(1 : ℚ)]⟩ : Sample)].length ∧
    (∀ s ∈ [(⟨some ("a"), none, none, some [(1 : ℚ)]⟩ : Sample)],
        s.pred_logits ≠ none) ∧
    evaluate_top_k_batch 1 ["a"]
        [⟨some ("a"), none, none, some [(1 : ℚ)]⟩] =
      evaluate_top_k_loop 1 ["a"]
        [⟨some ("a"), none, none, some [(1 : ℚ)]⟩] := by
  have hne : 0 < [(⟨some ("a"), none, none, some [(1 : ℚ)]⟩ :
      Sample)].length := Nat.one_pos
  have hlog : ∀ s ∈ [(⟨some ("a"), none, none, some [(1 : ℚ)]⟩ : Sample)],
      s.pred_logits ≠ none := by
    intro s hs
    rw [List.mem_singleton] at hs
    subst hs
    exact fun hc => Option.noConfusion hc
  exact ⟨hne, hlog, C9_batch_loop_equivalence.2.2 1 ["a"] _ hne hlog⟩

/-- A target document (query.py:44-47). -/
structure Target where
  target : ℤ
  value : String

/-- A named-targets document (query.py:50-53). -/
structure NamedTargets where
  name : String
  targets : List Target

/-- A run document, one of the values of the `brain_methods` /
`evaluations` dicts (query.py:70-76); the modifier passes these values
through unchanged, so only representative fields are modelled. -/
structure RunDoc where
  key : String
  version : String

/-- A (possibly nested) sample-field document as stored in the database:
the `name` key popped by `_flatten_fields`, the attribute keys the
flattened field keeps, and the nested `fields` list (query.py:223-235). -/
inductive FieldDoc where
  | node (name : String) (ftype : String) (subfield : Option String)
      (embedded_doc_type : Option String) (db_field : Option String)
      (fields : List FieldDoc)

/-- A flattened sample field (query.py:56-62). -/
structure SampleField where
  ftype : String
  path : String
  subfield : Option String
  embedded_doc_type : Option String
  db_field : Option String

/-- Embeds `_flatten_fields` (query.py:223-235): depth-first walk in which
each field is emitted with its dot-joined name chain as `path`, immediately
followed by its flattened descendants. -/
def _flatten_fields : List String → List FieldDoc → List SampleField
  | _, [] => []
  | path, .node name ftype subfield embedded_doc_type db_field fields ::
      rest =>
    let field_path := path ++ [name]
    ({ ftype := ftype, path := String.intercalate (".") field_path,
        subfield := subfield, embedded_doc_type := embedded_doc_type,
        db_field := db_field } :: _flatten_fields field_path fields)
      ++ _flatten_fields path rest

/-- A dataset document as stored in the `datasets` collection, with the
keys the excerpt touches (query.py:112-142); `oid` stands for the Mongo
`_id` key popped by the modifier. -/
structure DatasetDoc where
  oid : String
  name : String
  sample_collection_name : String
  created_at : ℤ
  persistent : Bool
  mask_targets : List NamedTargets
  default_mask_targets : List Target
  sample_fields : List FieldDoc
  frame_fields : List FieldDoc
  brain_methods : List (String × RunDoc)
  evaluations : List (String × RunDoc)

/-- The document shape `Dataset.modifier` produces (query.py:132-142):
`id` replaces the popped `_id`, the remaining untouched keys pass
through. -/
structure DatasetOut where
  id : String
  name : String
  sample_collection_name : String
  created_at : ℤ
  persistent : Bool
  mask_targets : List NamedTargets
  default_mask_targets : List Target
  sample_fields : List SampleField
  frame_fields : List SampleField
  brain_methods : List RunDoc
  evaluations : List RunDoc

/-- Embeds `Dataset.modifier` (query.py:132-142): `doc["id"] =
doc.pop("_id")`, the two mask-target entries are overwritten with empty
lists regardless of their stored values, the field documents are
flattened, and the `brain_methods` / `evaluations` dicts are replaced by
their value lists. -/
def Dataset.modifier (doc : DatasetDoc) : DatasetOut :=
  { id := doc.oid
    name := doc.name
    sample_collection_name := doc.sample_collection_name
    created_at := doc.created_at
    persistent := doc.persistent
    mask_targets := []
    default_mask_targets := []
    sample_fields := _flatten_fields [] doc.sample_fields
    frame_fields := _flatten_fields [] doc.frame_fields
    brain_methods := doc.brain_methods.map Prod.snd
    evaluations := doc.evaluations.map Prod.snd }

/-- Embeds `DATASET_FILTER` (query.py:34) as a predicate on documents: the
Mongo filter `sample_collection_name: $regex ^samples\.` holds exactly of
documents whose collection name starts with the literal "samples."
(expressed as a character-list prefix test). -/
def DATASET_FILTER (doc : DatasetDoc) : Bool :=
  ("samples.").data.isPrefixOf doc.sample_collection_name.data

/-- Modelled from the spec: `get_dataloader_resolver` (module
`fiftyone.server.dataloader`, not part of this excerpt) is part of the
"thin dataloader/pagination wrapper over document queries"; the resolver it
builds for `Dataset` (query.py:144-149) looks the requested `name` up among
the stored documents matching the attached `DATASET_FILTER` and converts
the hit through the type's `modifier`. -/
def dataset_dataloader (db : List DatasetDoc) (name : String) :
    Option DatasetOut :=
  ((db.filter (fun d => DATASET_FILTER d && d.name == name)).head?).map
    Dataset.modifier

/-- Modelled from the spec: `get_paginator_resolver` (module
`fiftyone.server.paginator`, not part of this excerpt) serves the
`datasets` connection (query.py:195-201) as "a thin pagination wrapper
over document queries": the stored documents matching
`DATASET_FILTER_STAGE`, ordered by `created_at`, converted through the
modifier.  Cursor slicing only selects a contiguous part of this list, so
the full list models the set of exposable documents. -/
def Query.datasets (db : List DatasetDoc) : List DatasetOut :=
  ((db.filter DATASET_FILTER).insertionSort
    (fun a b => a.created_at ≤ b.created_at)).map Dataset.modifier

/-- C10: for every stored document, the modifier returns a document whose
mask-target entries are empty lists regardless of the stored values, and
whose `id` is the document's `_id`. -/
theorem C10_mask_targets_hidden (doc : DatasetDoc) :
    (Dataset.modifier doc).mask_targets = [] ∧
    (Dataset.modifier doc).default_mask_targets = [] ∧
    (Dataset.modifier doc).id = doc.oid :=
  ⟨rfl, rfl, rfl⟩

/-- C7: every dataset document exposed by the single-dataset resolver or by
the paginated datasets connection satisfies the catalog filter — its
sample_collection_name starts with "samples." (the regex ^samples\.) — so
non-matching documents are never exposed by either query field. -/
theorem C7_dataset_filter (db : List DatasetDoc) :
    (∀ (name : String) (out : DatasetOut),
        dataset_dataloader db name = some out →
          ("samples.").data.isPrefixOf out.sample_collection_name.data =
            true) ∧
    (∀ out ∈ Query.datasets db,
        ("samples.").data.isPrefixOf out.sample_collection_name.data =
          true) := by
  constructor
  · intro name out h
    rw [dataset_dataloader] at h
    obtain ⟨d, hd, hout⟩ := Option.map_eq_some'.1 h
    have hmem : d ∈ db.filter (fun d => DATASET_FILTER d && d.name == name) := by
      rw [List.eq_cons_of_mem_head? (Option.mem_def.mpr hd)]
      exact List.mem_cons_self _ _
    have hp := List.of_mem_filter hmem
    rw [Bool.and_eq_true] at hp
    rw [← hout]
    exact hp.1
  · intro out hout
    rw [Query.datasets] at hout
    obtain ⟨d, hd, hmod⟩ := List.mem_map.1 hout
    have hmem : d ∈ db.filter DATASET_FILTER :=
      ((List.perm_insertionSort _ _).mem_iff).1 hd
    have hp := List.of_mem_filter hmem
    rw [← hmod]
    exact hp

/-- A concrete catalog document used in the instance below. -/
def sampleCatalogDoc : DatasetDoc :=
  ⟨"5f1", "quickstart", "samples.x", 0, true, [], [], [], [], [], []⟩

/-- Concrete instance of C7: a one-document catalog whose collection name
is "samples.x" resolves by name, and the exposed document satisfies the
filter. -/
theorem C7_dataset_filter_witness :
    dataset_dataloader [sampleCatalogDoc] ("quickstart") =
      some (Dataset.modifier sampleCatalogDoc) ∧
    ("samples.").data.isPrefixOf
      (Dataset.modifier sampleCatalogDoc).sample_collection_name.data =
      true := by
  have hfilter : (fun d => DATASET_FILTER d && d.name == ("quickstart"))
      sampleCatalogDoc = true := by decide
  have hres : dataset_dataloader [sampleCatalogDoc] ("quickstart") =
      some (Dataset.modifier sampleCatalogDoc) := by
    rw [dataset_dataloader, List.filter_cons, if_pos hfilter]
    rfl
  exact ⟨hres,
    (C7_dataset_filter [sampleCatalogDoc]).1 ("quickstart") _ hres⟩

end FiftyOneSpec
